import Mathlib

/-!
Shallow embedding of the carpark-finder bot core (`src/bot.py`):
the metadata pagination client, the matching-and-ranking pipeline of
`show_carpark_availability`, the `haversine` distance, and the expiring
location store.  Machine floats are modelled as real numbers; Python
`int(...)` on a string is modelled by `toIntM`; Python `float(...)`
and the pyproj `Transformer` are external library calls and are passed in
as parameters.  A per-record Python exception caught by the
`except: continue` is modelled by an `Option` result for that record.
-/

namespace CarparkBot

/-- Raw metadata record from the metadata source (fields used by the code).
`free_parking` may be absent, hence `Option`. -/
structure CarparkMetadataRecord where
  car_park_no : String
  address : String
  x_coord : String
  y_coord : String
  free_parking : Option String
  deriving Repr, DecidableEq

/-- One `{lot_type, lots_available}` entry of an availability record. -/
structure LotInfo where
  lot_type : String
  lots_available : String
  deriving Repr, DecidableEq

/-- Live availability record: `{carpark_number, carpark_info}`. -/
structure CarparkAvailabilityRecord where
  carpark_number : String
  carpark_info : List LotInfo
  deriving Repr, DecidableEq

/-- Drop leading whitespace characters from a character list. -/
def dropLeadingWs : List Char → List Char
  | [] => []
  | c :: t => if c.isWhitespace then dropLeadingWs t else c :: t

/-- Trim whitespace from both ends of a character list. -/
def trimChars (l : List Char) : List Char :=
  (dropLeadingWs (dropLeadingWs l).reverse).reverse

/-- `s.strip().upper()` — normalisation applied to carpark identifiers on
both sides of the match in `show_carpark_availability`: trim whitespace at
both ends, then uppercase every character. -/
def normKey (s : String) : String :=
  String.mk ((trimChars s.data).map Char.toUpper)

/-- Digits-only read of a character list as a natural number; `none` when
empty or when any character is not a digit. -/
def digitsToNat (l : List Char) : Option Nat :=
  if l = [] then none
  else
    l.foldl
      (fun acc c =>
        match acc with
        | none => none
        | some n => if c.isDigit then some (n * 10 + (c.toNat - 48)) else none)
      (some 0)

/-- Python `int(...)` on a string: an optional sign followed by digits;
`none` models the `ValueError` on anything else. -/
def toIntM (s : String) : Option Int :=
  match s.data with
  | '-' :: ds => (digitsToNat ds).map fun n => -(n : Int)
  | '+' :: ds => (digitsToNat ds).map fun n => (n : Int)
  | ds => (digitsToNat ds).map fun n => (n : Int)

/-- `next((c for c in carpark_availability if c['carpark_number'].strip().upper()
== carpark['car_park_no'].strip().upper()), None)` from bot.py line 131. -/
def matchAvail (availability : List CarparkAvailabilityRecord)
    (carpark : CarparkMetadataRecord) : Option CarparkAvailabilityRecord :=
  availability.find? fun c => normKey c.carpark_number == normKey carpark.car_park_no

/-- `sum(int(info['lots_available']) for info in car_lots if info['lot_type'] == 'C')`
from bot.py line 137.  `int(...)` raising on a malformed string is modelled by
`none`; only entries with `lot_type == "C"` are ever parsed, so a malformed
value on another lot type cannot fail. -/
def sumCarLots : List LotInfo → Option Int
  | [] => some 0
  | info :: rest =>
    if info.lot_type == "C" then
      match toIntM info.lots_available, sumCarLots rest with
      | some n, some s => some (n + s)
      | _, _ => none
    else
      sumCarLots rest

/-- HTTP response of one metadata page request. -/
structure PageResponse where
  status_code : Nat
  records : List CarparkMetadataRecord
  deriving Repr, DecidableEq

/-- `fetch_carpark_info` (bot.py lines 74-82): on a non-200 status it
returns `[]`; otherwise the page's records. -/
def fetch_carpark_info (r : PageResponse) : List CarparkMetadataRecord :=
  if r.status_code ≠ 200 then [] else r.records

/-- The pagination loop of `show_carpark_availability` (bot.py lines 103-112):
starting at offset 0 it calls `fetch_carpark_info`, stops on an empty batch,
extends, stops when a batch is shorter than `limit`, else moves to the next
page.  The successive page responses are given as a list; an exhausted list
behaves like further empty pages. -/
def fetchAllMetadata (limit : Nat) : List PageResponse → List CarparkMetadataRecord
  | [] => []
  | p :: rest =>
    let batch := fetch_carpark_info p
    if batch.isEmpty then []
    else if batch.length < limit then batch
    else batch ++ fetchAllMetadata limit rest

/-- Modelled from the spec: §4.2 `fetch_carpark_metadata` is to fail with
`UpstreamError` if any page request returns a non-success status, discarding
the already-accumulated pages.  This definition follows the spec's words, to
be compared with `fetchAllMetadata`, which is translated from the code. -/
def fetchAllMetadataSpec (limit : Nat) :
    List PageResponse → Except Unit (List CarparkMetadataRecord)
  | [] => .ok []
  | p :: rest =>
    if p.status_code ≠ 200 then .error ()
    else if p.records.isEmpty then .ok []
    else if p.records.length < limit then .ok p.records
    else
      match fetchAllMetadataSpec limit rest with
      | .ok tail => .ok (p.records ++ tail)
      | .error e => .error e

/-- `math.radians`: degrees to radians. -/
noncomputable def radians (d : ℝ) : ℝ :=
  d * Real.pi / 180

/-- `math.atan2 y x` (the C `atan2` semantics Python follows), modelled on
the reals with the usual quadrant corrections. -/
noncomputable def arctan2 (y x : ℝ) : ℝ :=
  if 0 < x then Real.arctan (y / x)
  else if x < 0 then
    if 0 ≤ y then Real.arctan (y / x) + Real.pi
    else Real.arctan (y / x) - Real.pi
  else
    if 0 < y then Real.pi / 2
    else if y < 0 then -(Real.pi / 2)
    else 0

/-- The intermediate `a` of `haversine` (bot.py line 69), with the locals
`d_lat = radians(lat2 - lat1)` and `d_lon = radians(lon2 - lon1)` inlined. -/
noncomputable def hav_a (lat1 lon1 lat2 lon2 : ℝ) : ℝ :=
  Real.sin (radians (lat2 - lat1) / 2) ^ 2 +
    Real.cos (radians lat1) * Real.cos (radians lat2) *
      Real.sin (radians (lon2 - lon1) / 2) ^ 2

/-- `haversine` (bot.py lines 64-71): great-circle distance in meters with
Earth radius `R = 6371000`, via `c = 2 * atan2(sqrt(a), sqrt(1 - a))`. -/
noncomputable def haversine (lat1 lon1 lat2 lon2 : ℝ) : ℝ :=
  6371000 *
    (2 * arctan2 (Real.sqrt (hav_a lat1 lon1 lat2 lon2))
      (Real.sqrt (1 - hav_a lat1 lon1 lat2 lon2)))

/-- Output record appended to `carpark_list` (bot.py lines 138-146). -/
structure RankedCarpark where
  car_park_no : String
  address : String
  lat : ℝ
  lng : ℝ
  distance : ℝ
  available_lots : Int
  free_parking : String

/-- The body of the per-record `try` block (bot.py lines 124-146): parse the
coordinates (`float(...)` is the parameter `pf`), reproject via the pyproj
transformer (parameter `tf`, returning `(lng, lat)`), compute the haversine
distance, look up the availability record with the same normalised
identifier, and — when one is found and its lot list is non-empty — sum the
car lots.  The Python locals (`lng, lat`, `distance`, `car_lots`,
`free_parking`) are inlined.  Any exception (coordinate or lot-count parse
failure) and any skip condition yields `none`: the `except: continue` drops
the record. -/
noncomputable def processRecord (pf : String → Option ℝ) (tf : ℝ → ℝ → ℝ × ℝ)
    (user_lat user_lon : ℝ) (availability : List CarparkAvailabilityRecord)
    (carpark : CarparkMetadataRecord) : Option RankedCarpark :=
  match pf carpark.x_coord, pf carpark.y_coord with
  | some x, some y =>
    match matchAvail availability carpark with
    | some matched =>
      if matched.carpark_info.isEmpty then none
      else
        match sumCarLots matched.carpark_info with
        | some total_lots =>
          some ⟨carpark.car_park_no, carpark.address, (tf x y).2, (tf x y).1,
            haversine user_lat user_lon (tf x y).2 (tf x y).1,
            total_lots, carpark.free_parking.getD "Unknown"⟩
        | none => none
    | none => none
  | _, _ => none

/-- Insert into a list sorted ascending by `distance` (model of the
comparisons done by Python's stable `sorted` with `key=lambda x: x['distance']`). -/
noncomputable def insertByDist (a : RankedCarpark) :
    List RankedCarpark → List RankedCarpark
  | [] => [a]
  | b :: t => if a.distance ≤ b.distance then a :: b :: t else b :: insertByDist a t

/-- `sorted(carpark_list, key=lambda x: x['distance'])` (bot.py line 151),
modelled as a stable insertion sort by `distance`. -/
noncomputable def sortByDist : List RankedCarpark → List RankedCarpark
  | [] => []
  | a :: t => insertByDist a (sortByDist t)

/-- The matching-and-ranking pipeline of `show_carpark_availability`
(bot.py lines 121-153): process each metadata record independently, keep
the successful ones in order, sort ascending by distance, truncate.  The
code takes the first 5 (`carpark_list[:5]`); `limit` is that truncation
bound. -/
noncomputable def rank_nearest_carparks (pf : String → Option ℝ)
    (tf : ℝ → ℝ → ℝ × ℝ) (user_lat user_lon : ℝ)
    (metadata : List CarparkMetadataRecord)
    (availability : List CarparkAvailabilityRecord) (limit : ℕ) :
    List RankedCarpark :=
  (sortByDist (metadata.filterMap (processRecord pf tf user_lat user_lon availability))).take limit

/-- A stored user location (`user_locations[user_id]`, bot.py lines 53-57).
`time.time()` timestamps are modelled as rationals. -/
structure UserLocation where
  latitude : ℚ
  longitude : ℚ
  timestamp : ℚ
  deriving Repr, DecidableEq

/-- `EXPIRY_SECONDS = 600` (bot.py line 20). -/
def EXPIRY_SECONDS : ℚ := 600

/-- The `user_locations` map, as a function from user id to stored entry. -/
def LocationStore : Type := ℕ → Option UserLocation

/-- `user_locations[user_id] = {latitude, longitude, timestamp: time.time()}`
(bot.py lines 53-57). -/
def set_location (s : LocationStore) (user_id : ℕ) (loc : UserLocation) :
    LocationStore :=
  fun v => if v = user_id then some loc else s v

/-- Lookup of `user_locations[user_id]` guarded by the membership test of
bot.py line 95. -/
def get_location (s : LocationStore) (user_id : ℕ) : Option UserLocation :=
  s user_id

/-- One sweep of `cleanup_locations` (bot.py lines 167-176): delete every
entry with `current_time - timestamp > EXPIRY_SECONDS`. -/
def cleanup_sweep (current_time : ℚ) (s : LocationStore) : LocationStore :=
  fun v =>
    match s v with
    | some d => if current_time - d.timestamp > EXPIRY_SECONDS then none else some d
    | none => none

/-! ### Helper lemmas: geometry -/

lemma arctan2_nonneg (y x : ℝ) (hy : 0 ≤ y) : 0 ≤ arctan2 y x := by
  have hpi := Real.pi_pos
  unfold arctan2
  rcases lt_trichotomy x 0 with hx | hx | hx
  · rw [if_neg (by linarith), if_pos hx, if_pos hy]
    have h1 := Real.neg_pi_div_two_lt_arctan (y / x)
    linarith
  · subst hx
    rw [if_neg (lt_irrefl 0), if_neg (lt_irrefl 0)]
    rcases eq_or_lt_of_le hy with h0 | h0
    · rw [if_neg (by linarith), if_neg (by linarith)]
    · rw [if_pos h0]
      linarith
  · rw [if_pos hx]
    calc (0 : ℝ) = Real.arctan 0 := Real.arctan_zero.symm
      _ ≤ Real.arctan (y / x) :=
        Real.arctan_strictMono.monotone (div_nonneg hy hx.le)

lemma haversine_nonneg (lat1 lon1 lat2 lon2 : ℝ) :
    0 ≤ haversine lat1 lon1 lat2 lon2 := by
  unfold haversine
  have h := arctan2_nonneg (Real.sqrt (hav_a lat1 lon1 lat2 lon2))
    (Real.sqrt (1 - hav_a lat1 lon1 lat2 lon2)) (Real.sqrt_nonneg _)
  nlinarith

lemma hav_a_comm (lat1 lon1 lat2 lon2 : ℝ) :
    hav_a lat1 lon1 lat2 lon2 = hav_a lat2 lon2 lat1 lon1 := by
  unfold hav_a radians
  have e1 : (lat1 - lat2) * Real.pi / 180 / 2 =
      -((lat2 - lat1) * Real.pi / 180 / 2) := by ring
  have e2 : (lon1 - lon2) * Real.pi / 180 / 2 =
      -((lon2 - lon1) * Real.pi / 180 / 2) := by ring
  rw [e1, e2, Real.sin_neg, Real.sin_neg]
  ring

lemma haversine_comm (lat1 lon1 lat2 lon2 : ℝ) :
    haversine lat1 lon1 lat2 lon2 = haversine lat2 lon2 lat1 lon1 := by
  unfold haversine
  rw [hav_a_comm]

lemma hav_a_self (lat lon : ℝ) : hav_a lat lon lat lon = 0 := by
  simp [hav_a, radians]

lemma haversine_self (lat lon : ℝ) : haversine lat lon lat lon = 0 := by
  unfold haversine
  rw [hav_a_self]
  simp [arctan2, Real.arctan_zero]

/-! ### Helper lemmas: sorting -/

lemma mem_insertByDist (a x : RankedCarpark) (l : List RankedCarpark) :
    x ∈ insertByDist a l ↔ x = a ∨ x ∈ l := by
  induction l with
  | nil => simp [insertByDist]
  | cons b t ih =>
    simp only [insertByDist]
    split
    · simp [List.mem_cons]
    · simp only [List.mem_cons, ih]
      tauto

lemma pairwise_insertByDist (a : RankedCarpark) (l : List RankedCarpark)
    (h : l.Pairwise fun u v => u.distance ≤ v.distance) :
    (insertByDist a l).Pairwise fun u v => u.distance ≤ v.distance := by
  induction l with
  | nil => simp [insertByDist]
  | cons b t ih =>
    rw [List.pairwise_cons] at h
    obtain ⟨hb, ht⟩ := h
    simp only [insertByDist]
    split
    · rename_i hab
      refine List.pairwise_cons.mpr ⟨?_, List.pairwise_cons.mpr ⟨hb, ht⟩⟩
      intro x hx
      rcases List.mem_cons.mp hx with rfl | hx'
      · exact hab
      · exact le_trans hab (hb x hx')
    · rename_i hab
      refine List.pairwise_cons.mpr ⟨?_, ih ht⟩
      intro x hx
      rcases (mem_insertByDist a x t).mp hx with rfl | hx'
      · exact le_of_not_le hab
      · exact hb x hx'

lemma pairwise_sortByDist (l : List RankedCarpark) :
    (sortByDist l).Pairwise fun u v => u.distance ≤ v.distance := by
  induction l with
  | nil => exact List.Pairwise.nil
  | cons a t ih => exact pairwise_insertByDist a (sortByDist t) ih

lemma mem_sortByDist (x : RankedCarpark) (l : List RankedCarpark) :
    x ∈ sortByDist l ↔ x ∈ l := by
  induction l with
  | nil => simp [sortByDist]
  | cons a t ih =>
    simp only [sortByDist, mem_insertByDist, List.mem_cons, ih]

/-! ### Helper lemmas: lot sums -/

lemma sumCarLots_nonneg (l : List LotInfo)
    (h : ∀ i ∈ l, ∀ n : ℤ, toIntM i.lots_available = some n → 0 ≤ n) :
    ∀ s : ℤ, sumCarLots l = some s → 0 ≤ s := by
  induction l with
  | nil =>
    intro s hs
    simp only [sumCarLots, Option.some.injEq] at hs
    omega
  | cons info rest ih =>
    intro s hs
    simp only [sumCarLots] at hs
    split at hs
    · rcases hn : toIntM info.lots_available with _ | n <;> rw [hn] at hs
      · exact absurd hs (by simp)
      · rcases hr : sumCarLots rest with _ | s' <;> rw [hr] at hs
        · exact absurd hs (by simp)
        · simp only [Option.some.injEq] at hs
          have h1 := h info (List.mem_cons_self info rest) n hn
          have h2 := ih (fun i hi => h i (List.mem_cons_of_mem info hi)) s' hr
          omega
    · exact ih (fun i hi => h i (List.mem_cons_of_mem info hi)) s hs

lemma sumCarLots_none_of_bad (l : List LotInfo) (i : LotInfo) (hi : i ∈ l)
    (hC : i.lot_type = "C") (hbad : toIntM i.lots_available = none) :
    sumCarLots l = none := by
  induction l with
  | nil => cases hi
  | cons info rest ih =>
    rcases List.mem_cons.mp hi with rfl | hi'
    · simp only [sumCarLots, hC]
      rw [if_pos (by simp), hbad]
    · simp only [sumCarLots]
      split
      · rw [ih hi']
        rcases toIntM info.lots_available with _ | n <;> rfl
      · exact ih hi'

lemma sumCarLots_of_no_C (l : List LotInfo)
    (h : ∀ i ∈ l, i.lot_type ≠ "C") : sumCarLots l = some 0 := by
  induction l with
  | nil => rfl
  | cons info rest ih =>
    have hne := h info (List.mem_cons_self info rest)
    simp only [sumCarLots]
    rw [if_neg (by simpa using hne)]
    exact ih fun i hi => h i (List.mem_cons_of_mem info hi)

/-- The sum the spec describes for step 5 of the engine: `lots_available`
summed over exactly the entries whose `lot_type` is `"C"` (each value read
with `toIntM`; the default 0 is never reached on records the code
emits, since those parse). -/
def carSumSpec (l : List LotInfo) : Int :=
  ((l.filter fun i => i.lot_type == "C").map
    fun i => (toIntM i.lots_available).getD 0).sum

lemma carSumSpec_cons_C (info : LotInfo) (rest : List LotInfo)
    (h : info.lot_type = "C") :
    carSumSpec (info :: rest) =
      (toIntM info.lots_available).getD 0 + carSumSpec rest := by
  simp [carSumSpec, List.filter_cons, h]

lemma carSumSpec_cons_not_C (info : LotInfo) (rest : List LotInfo)
    (h : info.lot_type ≠ "C") :
    carSumSpec (info :: rest) = carSumSpec rest := by
  simp [carSumSpec, List.filter_cons, h]

lemma sumCarLots_eq_carSumSpec (l : List LotInfo) :
    ∀ s : ℤ, sumCarLots l = some s → s = carSumSpec l := by
  induction l with
  | nil =>
    intro s hs
    simp only [sumCarLots, Option.some.injEq] at hs
    simp [carSumSpec, ← hs]
  | cons info rest ih =>
    intro s hs
    simp only [sumCarLots] at hs
    split at hs
    · rename_i hC
      rcases hn : toIntM info.lots_available with _ | n <;> rw [hn] at hs
      · exact absurd hs (by simp)
      · rcases hr : sumCarLots rest with _ | s' <;> rw [hr] at hs
        · exact absurd hs (by simp)
        · simp only [Option.some.injEq] at hs
          rw [carSumSpec_cons_C info rest (by simpa using hC), hn,
            ← ih s' hr, ← hs]
          rfl
    · rename_i hC
      rw [carSumSpec_cons_not_C info rest (by simpa using hC)]
      exact ih s hs

/-! ### Helper lemmas: per-record processing and the pipeline -/

lemma processRecord_eq_some (pf : String → Option ℝ) (tf : ℝ → ℝ → ℝ × ℝ)
    (user_lat user_lon : ℝ) (availability : List CarparkAvailabilityRecord)
    (carpark : CarparkMetadataRecord) (out : RankedCarpark)
    (h : processRecord pf tf user_lat user_lon availability carpark = some out) :
    ∃ x y matched, pf carpark.x_coord = some x ∧ pf carpark.y_coord = some y ∧
      matchAvail availability carpark = some matched ∧
      matched.carpark_info ≠ [] ∧
      sumCarLots matched.carpark_info = some out.available_lots ∧
      out.distance = haversine user_lat user_lon (tf x y).2 (tf x y).1 ∧
      out.car_park_no = carpark.car_park_no ∧
      out.address = carpark.address ∧
      out.free_parking = carpark.free_parking.getD "Unknown" := by
  unfold processRecord at h
  split at h
  · rename_i x y hx hy
    split at h
    · rename_i matched hm
      split at h
      · exact absurd h (by simp)
      · rename_i hne
        split at h
        · rename_i total hsum
          refine ⟨x, y, matched, hx, hy, hm, by simpa using hne, ?_⟩
          cases h' : out
          rw [h'] at h
          simp only [Option.some.injEq, RankedCarpark.mk.injEq] at h
          obtain ⟨h1, h2, h3, h4, h5, h6, h7⟩ := h
          subst h'
          simp_all
        · exact absurd h (by simp)
    · exact absurd h (by simp)
  · exact absurd h (by simp)

lemma rank_eq_filterMap (pf : String → Option ℝ) (tf : ℝ → ℝ → ℝ × ℝ)
    (user_lat user_lon : ℝ) (metadata : List CarparkMetadataRecord)
    (availability : List CarparkAvailabilityRecord) (limit : ℕ) :
    rank_nearest_carparks pf tf user_lat user_lon metadata availability limit =
      (sortByDist (metadata.filterMap
        (processRecord pf tf user_lat user_lon availability))).take limit :=
  rfl

lemma mem_rank (pf : String → Option ℝ) (tf : ℝ → ℝ → ℝ × ℝ)
    (user_lat user_lon : ℝ) (metadata : List CarparkMetadataRecord)
    (availability : List CarparkAvailabilityRecord) (limit : ℕ)
    (r : RankedCarpark)
    (h : r ∈ rank_nearest_carparks pf tf user_lat user_lon metadata
      availability limit) :
    ∃ m ∈ metadata, processRecord pf tf user_lat user_lon availability m = some r := by
  rw [rank_eq_filterMap] at h
  have h1 := List.take_subset limit _ h
  rw [mem_sortByDist] at h1
  exact List.mem_filterMap.mp h1

lemma rank_skips_none (pf : String → Option ℝ) (tf : ℝ → ℝ → ℝ × ℝ)
    (user_lat user_lon : ℝ) (availability : List CarparkAvailabilityRecord)
    (r : CarparkMetadataRecord)
    (h : processRecord pf tf user_lat user_lon availability r = none)
    (pre post : List CarparkMetadataRecord) (limit : ℕ) :
    rank_nearest_carparks pf tf user_lat user_lon (pre ++ r :: post)
        availability limit =
      rank_nearest_carparks pf tf user_lat user_lon (pre ++ post)
        availability limit := by
  unfold rank_nearest_carparks
  rw [List.filterMap_append, List.filterMap_append, List.filterMap_cons, h]

/-! ### Concrete fixtures used by witnesses and counterexamples -/

/-- A parse function standing in for Python `float(...)`: fails exactly on
the string `"bad"`. -/
noncomputable def pf0 : String → Option ℝ :=
  fun s => if s = "bad" then none else some 0

/-- A projection standing in for the pyproj transformer (identity). -/
def tf0 : ℝ → ℝ → ℝ × ℝ := fun x y => (x, y)

/-- A metadata record with parseable coordinates. -/
def metaA1 : CarparkMetadataRecord :=
  ⟨"A1", "1 Example Ave", "0", "0", none⟩

/-- A metadata record whose `x_coord` fails to parse under `pf0`. -/
def metaBad : CarparkMetadataRecord :=
  ⟨"A1", "1 Example Ave", "bad", "0", none⟩

/-- Availability for `"A1"` with a car-lot entry and a heavy-vehicle entry. -/
def mA1CH : CarparkAvailabilityRecord :=
  ⟨" a1 ", [⟨"C", "10"⟩, ⟨"H", "5"⟩]⟩

def availA1CH : List CarparkAvailabilityRecord := [mA1CH]

/-- Availability for `"A1"` with no `"C"` entry. -/
def mA1H : CarparkAvailabilityRecord := ⟨"A1", [⟨"H", "5"⟩]⟩

def availA1H : List CarparkAvailabilityRecord := [mA1H]

/-- Availability for `"A1"` with one valid and one malformed `"C"` entry. -/
def mA1CC : CarparkAvailabilityRecord :=
  ⟨"A1", [⟨"C", "5"⟩, ⟨"C", "n/a"⟩]⟩

def availA1CC : List CarparkAvailabilityRecord := [mA1CC]

/-- Availability for `"A1"` with a negative car-lot count. -/
def availA1neg : List CarparkAvailabilityRecord :=
  [⟨"A1", [⟨"C", "-5"⟩]⟩]

/-- Availability that matches no record named `"A1"`. -/
def availB2 : List CarparkAvailabilityRecord :=
  [⟨" b2 ", [⟨"C", "3"⟩]⟩]

/-- The empty location store. -/
def store0 : LocationStore := fun _ => none

def loc0 : UserLocation := ⟨13 / 10, 1038 / 10, 0⟩

/-! ### Claims -/

/-- C7: `haversine` is symmetric — `haversine p q = haversine q p` — and
`haversine p p = 0`. -/
theorem claim_C7_haversine_symm_self (lat1 lon1 lat2 lon2 : ℝ) :
    haversine lat1 lon1 lat2 lon2 = haversine lat2 lon2 lat1 lon1 ∧
    haversine lat1 lon1 lat1 lon1 = 0 :=
  ⟨haversine_comm lat1 lon1 lat2 lon2, haversine_self lat1 lon1⟩

/-- C2: for every user position, metadata sequence and availability
sequence, the ranking pipeline's output is sorted non-decreasing by
distance, has length at most `limit`, and is the `limit`-truncation of the
sort of all emitted records. -/
theorem claim_C2_rank_sorted_bounded (pf : String → Option ℝ)
    (tf : ℝ → ℝ → ℝ × ℝ) (user_lat user_lon : ℝ)
    (metadata : List CarparkMetadataRecord)
    (availability : List CarparkAvailabilityRecord) (limit : ℕ) :
    (rank_nearest_carparks pf tf user_lat user_lon metadata availability
      limit).Pairwise (fun u v => u.distance ≤ v.distance) ∧
    (rank_nearest_carparks pf tf user_lat user_lon metadata availability
      limit).length ≤ limit ∧
    rank_nearest_carparks pf tf user_lat user_lon metadata availability limit =
      (sortByDist (metadata.filterMap
        (processRecord pf tf user_lat user_lon availability))).take limit := by
  refine ⟨?_, ?_, rank_eq_filterMap pf tf user_lat user_lon metadata availability limit⟩
  · rw [rank_eq_filterMap]
    exact (pairwise_sortByDist _).sublist (List.take_sublist _ _)
  · rw [rank_eq_filterMap]
    exact List.length_take_le _ _

/-- C8: after `set_location` an immediate `get_location` returns the stored
entry, and once the entry's age exceeds `EXPIRY_SECONDS` a sweep removes it
so that `get_location` finds nothing. -/
theorem claim_C8_location_store (s : LocationStore) (u : ℕ)
    (loc : UserLocation) (now : ℚ) :
    get_location (set_location s u loc) u = some loc ∧
    (now - loc.timestamp > EXPIRY_SECONDS →
      get_location (cleanup_sweep now (set_location s u loc)) u = none) := by
  constructor
  · simp [get_location, set_location]
  · intro h
    simp [get_location, cleanup_sweep, set_location, h]

/-- Witness for C8 at a concrete store, user, location and sweep time. -/
theorem claim_C8_location_store_witness :
    get_location (set_location store0 1 loc0) 1 = some loc0 ∧
    get_location (cleanup_sweep 601 (set_location store0 1 loc0)) 1 = none :=
  ⟨(claim_C8_location_store store0 1 loc0 601).1,
    (claim_C8_location_store store0 1 loc0 601).2 (by norm_num [loc0, EXPIRY_SECONDS])⟩

/-- C3: a metadata record and an availability record are matched iff their
identifiers are equal after trimming whitespace and uppercasing, and a
metadata record with no such match contributes no entry to the output. -/
theorem claim_C3_matching_key (pf : String → Option ℝ) (tf : ℝ → ℝ → ℝ × ℝ)
    (user_lat user_lon : ℝ) (avail : List CarparkAvailabilityRecord)
    (r : CarparkMetadataRecord) :
    ((matchAvail avail r).isSome ↔
      ∃ c ∈ avail, normKey c.carpark_number = normKey r.car_park_no) ∧
    ((∀ c ∈ avail, normKey c.carpark_number ≠ normKey r.car_park_no) →
      ∀ rest limit,
        rank_nearest_carparks pf tf user_lat user_lon (r :: rest) avail limit =
          rank_nearest_carparks pf tf user_lat user_lon rest avail limit) := by
  constructor
  · simp only [matchAvail, List.find?_isSome, beq_iff_eq, normKey]
  · intro h rest limit
    have hm : matchAvail avail r = none := by
      unfold matchAvail
      rw [List.find?_eq_none]
      intro c hc
      simpa [normKey] using h c hc
    have hp : processRecord pf tf user_lat user_lon avail r = none := by
      unfold processRecord
      cases hx : pf r.x_coord <;> cases hy : pf r.y_coord <;> simp [hm]
    simpa using rank_skips_none pf tf user_lat user_lon avail r hp [] rest limit

/-- Witness for C3: a record with no normalised match contributes nothing. -/
theorem claim_C3_matching_key_witness :
    ((matchAvail availB2 metaA1).isSome ↔
      ∃ c ∈ availB2,
        normKey c.carpark_number = normKey metaA1.car_park_no) ∧
    rank_nearest_carparks pf0 tf0 0 0 [metaA1] availB2 5 =
      rank_nearest_carparks pf0 tf0 0 0 [] availB2 5 :=
  ⟨(claim_C3_matching_key pf0 tf0 0 0 availB2 metaA1).1,
    (claim_C3_matching_key pf0 tf0 0 0 availB2 metaA1).2 (by decide) [] 5⟩

/-- C4: an emitted record's `available_lots` is the sum of `lots_available`
over exactly the `lot_type == "C"` entries of the matched availability
record, and a matched record whose lot list is empty is skipped entirely. -/
theorem claim_C4_car_lot_sum (pf : String → Option ℝ) (tf : ℝ → ℝ → ℝ × ℝ)
    (user_lat user_lon : ℝ) (avail : List CarparkAvailabilityRecord)
    (r : CarparkMetadataRecord) (out : RankedCarpark)
    (m : CarparkAvailabilityRecord) :
    (processRecord pf tf user_lat user_lon avail r = some out →
      matchAvail avail r = some m →
      out.available_lots = carSumSpec m.carpark_info) ∧
    (matchAvail avail r = some m → m.carpark_info = [] →
      processRecord pf tf user_lat user_lon avail r = none) := by
  constructor
  · intro hp hm
    obtain ⟨x, y, m', hx, hy, hm', hne, hsum, -⟩ :=
      processRecord_eq_some pf tf user_lat user_lon avail r out hp
    rw [hm] at hm'
    injection hm' with e
    subst e
    exact sumCarLots_eq_carSumSpec _ _ hsum
  · intro hm hemp
    unfold processRecord
    cases hx : pf r.x_coord <;> cases hy : pf r.y_coord <;> simp [hm, hemp]

/-- Witness for C4: availability entries `[{C,10},{H,5}]` give
`available_lots = 10` = the sum over the `"C"` entries alone. -/
theorem claim_C4_car_lot_sum_witness :
    processRecord pf0 tf0 0 0 availA1CH metaA1 =
      some ⟨"A1", "1 Example Ave", (tf0 0 0).2, (tf0 0 0).1,
        haversine 0 0 (tf0 0 0).2 (tf0 0 0).1, 10, "Unknown"⟩ ∧
    (⟨"A1", "1 Example Ave", (tf0 0 0).2, (tf0 0 0).1,
      haversine 0 0 (tf0 0 0).2 (tf0 0 0).1, 10,
      "Unknown"⟩ : RankedCarpark).available_lots =
        carSumSpec mA1CH.carpark_info ∧
    carSumSpec mA1CH.carpark_info = 10 :=
  have hp : processRecord pf0 tf0 0 0 availA1CH metaA1 =
      some ⟨"A1", "1 Example Ave", (tf0 0 0).2, (tf0 0 0).1,
        haversine 0 0 (tf0 0 0).2 (tf0 0 0).1, 10, "Unknown"⟩ := rfl
  have hm : matchAvail availA1CH metaA1 = some mA1CH := rfl
  ⟨hp,
    (claim_C4_car_lot_sum pf0 tf0 0 0 availA1CH metaA1 _ mA1CH).1 hp hm,
    by decide⟩

/-- C5: a metadata record whose coordinates fail to parse is skipped
silently; no per-record failure aborts the processing of the remaining
records; with zero valid records the result is empty. -/
theorem claim_C5_record_failures_tolerated (pf : String → Option ℝ)
    (tf : ℝ → ℝ → ℝ × ℝ) (user_lat user_lon : ℝ)
    (avail : List CarparkAvailabilityRecord) (limit : ℕ) :
    (∀ r, (pf r.x_coord = none ∨ pf r.y_coord = none) →
      processRecord pf tf user_lat user_lon avail r = none) ∧
    (∀ r pre post, processRecord pf tf user_lat user_lon avail r = none →
      rank_nearest_carparks pf tf user_lat user_lon (pre ++ r :: post) avail
          limit =
        rank_nearest_carparks pf tf user_lat user_lon (pre ++ post) avail
          limit) ∧
    (∀ metadata : List CarparkMetadataRecord,
      (∀ r ∈ metadata, pf r.x_coord = none ∨ pf r.y_coord = none) →
      rank_nearest_carparks pf tf user_lat user_lon metadata avail limit = []) := by
  have hskip : ∀ r : CarparkMetadataRecord,
      (pf r.x_coord = none ∨ pf r.y_coord = none) →
      processRecord pf tf user_lat user_lon avail r = none := by
    intro r h
    unfold processRecord
    rcases h with h | h <;>
      cases hx : pf r.x_coord <;> cases hy : pf r.y_coord <;> simp_all
  refine ⟨hskip,
    fun r pre post h => rank_skips_none pf tf user_lat user_lon avail r h pre post limit,
    ?_⟩
  intro metadata hall
  induction metadata with
  | nil => simp [rank_eq_filterMap, sortByDist]
  | cons r rest ih =>
    have h1 := hskip r (hall r (List.mem_cons_self r rest))
    have h2 := rank_skips_none pf tf user_lat user_lon avail r h1 [] rest limit
    simp only [List.nil_append] at h2
    rw [h2]
    exact ih fun q hq => hall q (List.mem_cons_of_mem r hq)

/-- Witness for C5: a record with unparseable `x_coord` yields no entry and
an all-invalid metadata list yields the empty output. -/
theorem claim_C5_record_failures_tolerated_witness :
    processRecord pf0 tf0 0 0 availA1CH metaBad = none ∧
    rank_nearest_carparks pf0 tf0 0 0 [metaBad] availA1CH 5 = [] :=
  have h := claim_C5_record_failures_tolerated pf0 tf0 0 0 availA1CH 5
  ⟨h.1 metaBad (Or.inl rfl),
    h.2.2 [metaBad] fun r hr => by
      rcases List.mem_singleton.mp hr with rfl
      exact Or.inl rfl⟩

/-- C9: a matched availability record whose lot list is non-empty but has no
`lot_type == "C"` entry is still emitted — with `available_lots = 0` — and
appears in the pipeline output, rather than being skipped. -/
theorem claim_C9_no_car_entries_emitted (pf : String → Option ℝ)
    (tf : ℝ → ℝ → ℝ × ℝ) (user_lat user_lon : ℝ)
    (avail : List CarparkAvailabilityRecord) (r : CarparkMetadataRecord)
    (m : CarparkAvailabilityRecord) (x y : ℝ)
    (hx : pf r.x_coord = some x) (hy : pf r.y_coord = some y)
    (hm : matchAvail avail r = some m) (hne : m.carpark_info ≠ [])
    (hnoC : ∀ i ∈ m.carpark_info, i.lot_type ≠ "C") :
    processRecord pf tf user_lat user_lon avail r =
      some ⟨r.car_park_no, r.address, (tf x y).2, (tf x y).1,
        haversine user_lat user_lon (tf x y).2 (tf x y).1, 0,
        r.free_parking.getD "Unknown"⟩ ∧
    ∀ limit : ℕ, 0 < limit →
      rank_nearest_carparks pf tf user_lat user_lon [r] avail limit =
        [⟨r.car_park_no, r.address, (tf x y).2, (tf x y).1,
          haversine user_lat user_lon (tf x y).2 (tf x y).1, 0,
          r.free_parking.getD "Unknown"⟩] := by
  have hp : processRecord pf tf user_lat user_lon avail r =
      some ⟨r.car_park_no, r.address, (tf x y).2, (tf x y).1,
        haversine user_lat user_lon (tf x y).2 (tf x y).1, 0,
        r.free_parking.getD "Unknown"⟩ := by
    unfold processRecord
    simp only [hx, hy, hm, sumCarLots_of_no_C m.carpark_info hnoC]
    rw [if_neg (by simpa [List.isEmpty_iff] using hne)]
  refine ⟨hp, ?_⟩
  intro limit hlim
  rw [rank_eq_filterMap]
  rw [show ([r].filterMap (processRecord pf tf user_lat user_lon avail)) =
    [⟨r.car_park_no, r.address, (tf x y).2, (tf x y).1,
      haversine user_lat user_lon (tf x y).2 (tf x y).1, 0,
      r.free_parking.getD "Unknown"⟩] from by
        simp [List.filterMap_cons, hp]]
  cases limit with
  | zero => omega
  | succ n => simp [sortByDist, insertByDist]

/-- Witness for C9 at a concrete record whose only lot entry is type "H". -/
theorem claim_C9_no_car_entries_emitted_witness :
    processRecord pf0 tf0 0 0 availA1H metaA1 =
      some ⟨metaA1.car_park_no, metaA1.address, (tf0 0 0).2, (tf0 0 0).1,
        haversine 0 0 (tf0 0 0).2 (tf0 0 0).1, 0,
        metaA1.free_parking.getD "Unknown"⟩ ∧
    ∀ limit : ℕ, 0 < limit →
      rank_nearest_carparks pf0 tf0 0 0 [metaA1] availA1H limit =
        [⟨metaA1.car_park_no, metaA1.address, (tf0 0 0).2, (tf0 0 0).1,
          haversine 0 0 (tf0 0 0).2 (tf0 0 0).1, 0,
          metaA1.free_parking.getD "Unknown"⟩] :=
  claim_C9_no_car_entries_emitted pf0 tf0 0 0 availA1H metaA1 mA1H 0 0
    rfl rfl rfl (by decide) (by decide)

/-- C10: if any `lot_type == "C"` entry of the matched availability record
has an unparseable `lots_available`, the whole carpark record is skipped,
even when other `"C"` entries are valid. -/
theorem claim_C10_bad_lot_value_skips_record (pf : String → Option ℝ)
    (tf : ℝ → ℝ → ℝ × ℝ) (user_lat user_lon : ℝ)
    (avail : List CarparkAvailabilityRecord) (r : CarparkMetadataRecord)
    (m : CarparkAvailabilityRecord) (i : LotInfo)
    (pre post : List CarparkMetadataRecord) (limit : ℕ)
    (hm : matchAvail avail r = some m) (hi : i ∈ m.carpark_info)
    (hC : i.lot_type = "C") (hbad : toIntM i.lots_available = none) :
    processRecord pf tf user_lat user_lon avail r = none ∧
    rank_nearest_carparks pf tf user_lat user_lon (pre ++ r :: post) avail
        limit =
      rank_nearest_carparks pf tf user_lat user_lon (pre ++ post) avail
        limit := by
  have hsum := sumCarLots_none_of_bad m.carpark_info i hi hC hbad
  have hp : processRecord pf tf user_lat user_lon avail r = none := by
    unfold processRecord
    cases hx : pf r.x_coord <;> cases hy : pf r.y_coord <;> simp [hm, hsum]
  exact ⟨hp, rank_skips_none pf tf user_lat user_lon avail r hp pre post limit⟩

/-- Witness for C10: the matched record has a valid `{C, "5"}` entry and a
malformed `{C, "n/a"}` entry; the carpark is dropped. -/
theorem claim_C10_bad_lot_value_skips_record_witness :
    processRecord pf0 tf0 0 0 availA1CC metaA1 = none ∧
    rank_nearest_carparks pf0 tf0 0 0 [metaA1] availA1CC 5 =
      rank_nearest_carparks pf0 tf0 0 0 [] availA1CC 5 :=
  claim_C10_bad_lot_value_skips_record pf0 tf0 0 0 availA1CC metaA1 mA1CC
    ⟨"C", "n/a"⟩ [] [] 5 rfl (by decide) rfl rfl

/-- C6 as stated is false: nothing in the code prevents a negative
`lots_available` string from the availability feed, and `int("-5")` parses,
so an output record can carry `available_lots = -5 < 0`. -/
theorem claim_C6_counterexample :
    ∃ r ∈ rank_nearest_carparks pf0 tf0 0 0 [metaA1] availA1neg 5,
      r.available_lots < 0 := by
  refine ⟨⟨"A1", "1 Example Ave", (tf0 0 0).2, (tf0 0 0).1,
    haversine 0 0 (tf0 0 0).2 (tf0 0 0).1, -5, "Unknown"⟩, ?_, by norm_num⟩
  have h : rank_nearest_carparks pf0 tf0 0 0 [metaA1] availA1neg 5 =
      [⟨"A1", "1 Example Ave", (tf0 0 0).2, (tf0 0 0).1,
        haversine 0 0 (tf0 0 0).2 (tf0 0 0).1, -5, "Unknown"⟩] := rfl
  rw [h]
  exact List.mem_singleton.mpr rfl

/-- C6 amended: every emitted record has `distance >= 0`; and whenever every
parseable `lots_available` value in the availability data is nonnegative
(which holds for real upstream data), every emitted record also has
`available_lots >= 0`. -/
theorem claim_C6_rank_invariants (pf : String → Option ℝ)
    (tf : ℝ → ℝ → ℝ × ℝ) (user_lat user_lon : ℝ)
    (metadata : List CarparkMetadataRecord)
    (avail : List CarparkAvailabilityRecord) (limit : ℕ) :
    (∀ r ∈ rank_nearest_carparks pf tf user_lat user_lon metadata avail limit,
      0 ≤ r.distance) ∧
    ((∀ c ∈ avail, ∀ i ∈ c.carpark_info,
        0 ≤ (toIntM i.lots_available).getD 0) →
      ∀ r ∈ rank_nearest_carparks pf tf user_lat user_lon metadata avail limit,
        0 ≤ r.available_lots) := by
  constructor
  · intro r hr
    obtain ⟨m, hmem, hp⟩ :=
      mem_rank pf tf user_lat user_lon metadata avail limit r hr
    obtain ⟨x, y, matched, hx, hy, hm, hne, hsum, hdist, -⟩ :=
      processRecord_eq_some pf tf user_lat user_lon avail m r hp
    rw [hdist]
    exact haversine_nonneg user_lat user_lon (tf x y).2 (tf x y).1
  · intro hvals r hr
    obtain ⟨m, hmem, hp⟩ :=
      mem_rank pf tf user_lat user_lon metadata avail limit r hr
    obtain ⟨x, y, matched, hx, hy, hm, hne, hsum, hdist, -⟩ :=
      processRecord_eq_some pf tf user_lat user_lon avail m r hp
    have hmemA : matched ∈ avail := by
      unfold matchAvail at hm
      exact List.mem_of_find?_eq_some hm
    refine sumCarLots_nonneg matched.carpark_info ?_ r.available_lots hsum
    intro i hi n hn
    have h0 := hvals matched hmemA i hi
    rw [hn] at h0
    simpa using h0

/-- Witness for C6 amended: the unconditional distance bound applied to the
record the pipeline emits on the adversarial negative-lots input, and the
guarded lots bound applied to the record it emits on an all-nonnegative
input. -/
theorem claim_C6_rank_invariants_witness :
    0 ≤ (⟨"A1", "1 Example Ave", (tf0 0 0).2, (tf0 0 0).1,
      haversine 0 0 (tf0 0 0).2 (tf0 0 0).1, -5,
      "Unknown"⟩ : RankedCarpark).distance ∧
    0 ≤ (⟨"A1", "1 Example Ave", (tf0 0 0).2, (tf0 0 0).1,
      haversine 0 0 (tf0 0 0).2 (tf0 0 0).1, 10,
      "Unknown"⟩ : RankedCarpark).available_lots :=
  ⟨(claim_C6_rank_invariants pf0 tf0 0 0 [metaA1] availA1neg 5).1
    ⟨"A1", "1 Example Ave", (tf0 0 0).2, (tf0 0 0).1,
      haversine 0 0 (tf0 0 0).2 (tf0 0 0).1, -5, "Unknown"⟩
    (by
      rw [show rank_nearest_carparks pf0 tf0 0 0 [metaA1] availA1neg 5 =
        [⟨"A1", "1 Example Ave", (tf0 0 0).2, (tf0 0 0).1,
          haversine 0 0 (tf0 0 0).2 (tf0 0 0).1, -5, "Unknown"⟩] from rfl]
      exact List.mem_singleton.mpr rfl),
  (claim_C6_rank_invariants pf0 tf0 0 0 [metaA1] availA1CH 5).2 (by decide)
    ⟨"A1", "1 Example Ave", (tf0 0 0).2, (tf0 0 0).1,
      haversine 0 0 (tf0 0 0).2 (tf0 0 0).1, 10, "Unknown"⟩
    (by
      rw [show rank_nearest_carparks pf0 tf0 0 0 [metaA1] availA1CH 5 =
        [⟨"A1", "1 Example Ave", (tf0 0 0).2, (tf0 0 0).1,
          haversine 0 0 (tf0 0 0).2 (tf0 0 0).1, 10, "Unknown"⟩] from rfl]
      exact List.mem_singleton.mpr rfl)⟩

/-- C1 as stated is false on the code: a full 200-page followed by a 500
response makes `fetch_carpark_info` return `[]`, the pagination loop breaks,
and the accumulated first page is kept and used — where the spec-modelled
fetch fails and discards it. -/
theorem claim_C1_counterexample :
    fetchAllMetadata 100 [⟨200, List.replicate 100 metaA1⟩, ⟨500, []⟩] =
      List.replicate 100 metaA1 ∧
    fetchAllMetadataSpec 100 [⟨200, List.replicate 100 metaA1⟩, ⟨500, []⟩] =
      Except.error () := by
  constructor
  · show fetchAllMetadata 100 [⟨200, List.replicate 100 metaA1⟩, ⟨500, []⟩] =
      List.replicate 100 metaA1
    norm_num [fetchAllMetadata, fetch_carpark_info, List.isEmpty_iff]
  · rfl

/-- C1 amended: a non-success page response yields an empty batch, which
terminates pagination; all pages accumulated before it are kept and returned
(in order) as the metadata result, with no failure raised. -/
theorem claim_C1_bad_page_truncates (limit : ℕ) (pre : List PageResponse)
    (bad : PageResponse) (rest : List PageResponse) (hlim : 0 < limit)
    (hpre : ∀ q ∈ pre, q.status_code = 200 ∧ q.records.length = limit)
    (hbad : bad.status_code ≠ 200) :
    fetchAllMetadata limit (pre ++ bad :: rest) =
      (pre.map fun q => q.records).flatten := by
  induction pre with
  | nil =>
    simp only [List.nil_append, List.map_nil, List.flatten_nil]
    simp [fetchAllMetadata, fetch_carpark_info, hbad]
  | cons q pre ih =>
    have hq := hpre q (List.mem_cons_self q pre)
    have hne : q.records.isEmpty = false := by
      cases hrec : q.records with
      | nil =>
        rw [hrec] at hq
        simp at hq
        omega
      | cons a t => rfl
    have hfq : fetch_carpark_info q = q.records := by
      unfold fetch_carpark_info
      rw [if_neg (by simp [hq.1])]
    simp only [List.cons_append, fetchAllMetadata, hfq]
    rw [if_neg (by simp [hne]), if_neg (by rw [hq.2]; omega)]
    simp only [List.append_eq]
    rw [ih fun p hp => hpre p (List.mem_cons_of_mem q hp)]
    simp

/-- Witness for C1 amended: one full page before a 500 page is kept. -/
theorem claim_C1_bad_page_truncates_witness :
    fetchAllMetadata 1 ([⟨200, [metaA1]⟩] ++ ⟨500, []⟩ :: []) =
      (([⟨200, [metaA1]⟩] : List PageResponse).map fun q => q.records).flatten :=
  claim_C1_bad_page_truncates 1 [⟨200, [metaA1]⟩] ⟨500, []⟩ []
    (by decide) (by decide) (by decide)

end CarparkBot
